import Mathlib

/-!
Verification development for the sql-toolkit `db` package: a shallow
embedding of the error-classification layer, the hook chain, the
transaction orchestrator and the retry helper, together with theorems
settling the specified properties.

Errors are modelled by the inductive `GoErr`; the Go value `nil` of type
`error` is `Option.none`.  Sentinel errors created with `errors.New` are
identified by their (distinct) message strings.  The standard library
values `sql.ErrNoRows`, `context.DeadlineExceeded`, `context.Canceled` and
`sql.ErrTxDone` get dedicated constructors.  The two `fmt.Errorf` wrapping
sites of the package (`rollback failed ... %w` in tx.go and
`all %d attempts failed ... %w` in WithRetry) get dedicated constructors so
that the `Unwrap` chain is represented exactly.
-/

namespace SqlToolkit

/-- Model of Go `error` values reachable in this package.  Driver errors
exposing a structured code (lib/pq `GetCode`, pgx `SQLState`, MySQL
`Number`) are constructors carrying that code plus the textual message
returned by `Error()`. -/
inductive GoErr where
  /-- An `errors.New` / plain `fmt.Errorf` error, identified by message. -/
  | sentinel (msg : String)
  /-- `sql.ErrNoRows`. -/
  | sqlErrNoRows
  /-- `context.DeadlineExceeded`. -/
  | ctxDeadlineExceeded
  /-- `context.Canceled`. -/
  | ctxCanceled
  /-- `sql.ErrTxDone`. -/
  | errTxDone
  /-- `*DBError` with fields Sentinel, Cause, Message (part_005). -/
  | dbError (sent : GoErr) (cause : GoErr) (message : String)
  /-- A lib/pq style error with a `GetCode() string` accessor. -/
  | pqErr (code : String) (msg : String)
  /-- A pgx style error with a `SQLState() string` accessor. -/
  | pgxErr (code : String) (msg : String)
  /-- A go-sql-driver/mysql style error with a `Number() uint16` accessor. -/
  | mysqlErr (number : Nat) (msg : String)
  /-- `fmt.Errorf("sqltoolkit/db: rollback failed (%v) after original error: %w", rbErr, err)`. -/
  | rollbackFailed (rbErr : GoErr) (orig : GoErr)
  /-- `fmt.Errorf("sqltoolkit/db: all %d attempts failed, last error: %w", cfg.MaxAttempts, lastErr)`
  with a non-nil `lastErr`; Unwrap yields `lastErr`. -/
  | retryExhausted (attempts : Int) (last : GoErr)
  /-- The same `fmt.Errorf` call with `lastErr` nil: `%w` of a non-error
  formats as `%!w(<nil>)` and produces a non-wrapping error. -/
  | retryExhaustedNil (attempts : Int)
  deriving DecidableEq, Repr

/-- The composite error built by `WithRetry` when all attempts are
exhausted, as a function of the (possibly nil) last error. -/
def GoErr.retryComposite (attempts : Int) : Option GoErr → GoErr
  | some e => .retryExhausted attempts e
  | none => .retryExhaustedNil attempts

/-- `ErrNotFound` (part_005). -/
def ErrNotFound : GoErr := .sentinel "sqltoolkit/db: record not found"

/-- `ErrDuplicateKey` (part_005). -/
def ErrDuplicateKey : GoErr := .sentinel "sqltoolkit/db: duplicate key"

/-- `ErrForeignKeyViolation` (part_005). -/
def ErrForeignKeyViolation : GoErr := .sentinel "sqltoolkit/db: foreign key violation"

/-- `ErrDeadlock` (part_005). -/
def ErrDeadlock : GoErr := .sentinel "sqltoolkit/db: deadlock detected"

/-- `ErrTimeout` (part_005). -/
def ErrTimeout : GoErr := .sentinel "sqltoolkit/db: query timeout"

/-- `ErrCheckViolation` (part_005). -/
def ErrCheckViolation : GoErr := .sentinel "sqltoolkit/db: check constraint violation"

/-- `ErrConnectionFailed` (part_005). -/
def ErrConnectionFailed : GoErr := .sentinel "sqltoolkit/db: connection failed"

/-- The string returned by each error value's `Error()` method. -/
def errMessage : GoErr → String
  | .sentinel m => m
  | .sqlErrNoRows => "sql: no rows in result set"
  | .ctxDeadlineExceeded => "context deadline exceeded"
  | .ctxCanceled => "context canceled"
  | .errTxDone => "sql: transaction has already been committed or rolled back"
  | .dbError s c m =>
      if m ≠ "" then
        errMessage s ++ ": " ++ m ++ " (cause: " ++ errMessage c ++ ")"
      else
        errMessage s ++ " (cause: " ++ errMessage c ++ ")"
  | .pqErr _ m => m
  | .pgxErr _ m => m
  | .mysqlErr _ m => m
  | .rollbackFailed rb o =>
      "sqltoolkit/db: rollback failed (" ++ errMessage rb ++
        ") after original error: " ++ errMessage o
  | .retryExhausted n l =>
      "sqltoolkit/db: all " ++ toString n ++ " attempts failed, last error: " ++ errMessage l
  | .retryExhaustedNil n =>
      "sqltoolkit/db: all " ++ toString n ++ " attempts failed, last error: %!w(<nil>)"

/-- `errors.Is(e, t)`: at every step of the Unwrap chain, compare with the
target, then try the custom `Is` method (`DBError.Is` delegates to
`errors.Is(e.Sentinel, target)`), then unwrap (`DBError.Unwrap` returns the
Cause; the two `fmt.Errorf` `%w` wrappers unwrap to the wrapped error). -/
def errIs (t : GoErr) : GoErr → Bool
  | e@(.dbError s c _) => e == t || errIs t s || errIs t c
  | e@(.rollbackFailed _ o) => e == t || errIs t o
  | e@(.retryExhausted _ l) => e == t || errIs t l
  | e => e == t

/-- `errors.As(e, &dbe)` for `**DBError`: the first `*DBError` in the
Unwrap chain, if any. -/
def asDBError : GoErr → Option GoErr
  | e@(.dbError _ _ _) => some e
  | .rollbackFailed _ o => asDBError o
  | .retryExhausted _ l => asDBError l
  | _ => none

/-- `errors.As` against the duck-typed `interface having GetCode() string`
used by `mapPQError`: the code of the first error in the chain exposing
`GetCode`. -/
def asPQCode : GoErr → Option String
  | .pqErr code _ => some code
  | .dbError _ c _ => asPQCode c
  | .rollbackFailed _ o => asPQCode o
  | .retryExhausted _ l => asPQCode l
  | _ => none

/-- `errors.As` against the `SQLState() string` interface used by
`mapPGXError`. -/
def asPGXState : GoErr → Option String
  | .pgxErr code _ => some code
  | .dbError _ c _ => asPGXState c
  | .rollbackFailed _ o => asPGXState o
  | .retryExhausted _ l => asPGXState l
  | _ => none

/-- `errors.As` against the `Number() uint16` interface used by
`mapMySQLError`. -/
def asMySQLNumber : GoErr → Option Nat
  | .mysqlErr n _ => some n
  | .dbError _ c _ => asMySQLNumber c
  | .rollbackFailed _ o => asMySQLNumber o
  | .retryExhausted _ l => asMySQLNumber l
  | _ => none

/-- Helper for the string functions of package `strings`: Boolean list
prefix test. -/
def isPrefixOfL : List Char → List Char → Bool
  | [], _ => true
  | _ :: _, [] => false
  | a :: as, b :: bs => a == b && isPrefixOfL as bs

/-- `strings.Index(hay, needle)` on character lists: index of the first
occurrence, `none` when absent. -/
def indexOfSub (needle : List Char) : List Char → Option Nat
  | [] => if needle.isEmpty then some 0 else none
  | c :: rest =>
      if isPrefixOfL needle (c :: rest) then some 0
      else (indexOfSub needle rest).map (· + 1)

/-- `strings.LastIndex(hay, needle)` on character lists: index of the last
occurrence, `none` when absent. -/
def lastIndexOfSub (needle : List Char) : List Char → Option Nat
  | [] => if needle.isEmpty then some 0 else none
  | c :: rest =>
      match lastIndexOfSub needle rest with
      | some i => some (i + 1)
      | none => if isPrefixOfL needle (c :: rest) then some 0 else none

/-- `strings.Contains`. -/
def strContains (hay sub : String) : Bool :=
  (indexOfSub sub.data hay.data).isSome

/-- `pqCodeFromString` (part_005): extract the SQLSTATE code from
`"pq: ERROR: message (SQLSTATE XXXXX)"`. -/
def pqCodeFromString (s : String) : String :=
  let marker := "(SQLSTATE ".data
  match lastIndexOfSub marker s.data with
  | none => ""
  | some idx =>
      let rest := s.data.drop (idx + marker.length)
      match indexOfSub [')'] rest with
      | none => String.mk rest
      | some e => String.mk (rest.take e)

/-- `mapByPGCode` (part_005): fixed SQLSTATE code table. -/
def mapByPGCode (code : String) (cause : GoErr) : Option GoErr :=
  if code = "23505" then some (.dbError ErrDuplicateKey cause "")
  else if code = "23503" then some (.dbError ErrForeignKeyViolation cause "")
  else if code = "23514" then some (.dbError ErrCheckViolation cause "")
  else if code = "40P01" then some (.dbError ErrDeadlock cause "")
  else if code = "57014" then some (.dbError ErrTimeout cause "")
  else if ["08000", "08003", "08006", "08001", "08004", "08007", "08P01"].contains code then
    some (.dbError ErrConnectionFailed cause "")
  else none

/-- `mapPQError` (part_005): try the `GetCode` duck type, else fall back to
parsing the SQLSTATE from the error text. -/
def mapPQError (err : GoErr) : Option GoErr :=
  match asPQCode err with
  | none => mapByPGCode (pqCodeFromString (errMessage err)) err
  | some code => mapByPGCode code err

/-- `mapPGXError` (part_005). -/
def mapPGXError (err : GoErr) : Option GoErr :=
  match asPGXState err with
  | none => none
  | some code => mapByPGCode code err

/-- `mapMySQLError` (part_005): fixed MySQL error-number table. -/
def mapMySQLError (err : GoErr) : Option GoErr :=
  match asMySQLNumber err with
  | none => none
  | some n =>
      if n = 1062 then some (.dbError ErrDuplicateKey err "")
      else if n = 1452 || n = 1216 || n = 1217 then some (.dbError ErrForeignKeyViolation err "")
      else if n = 1213 then some (.dbError ErrDeadlock err "")
      else if n = 3024 then some (.dbError ErrTimeout err "")
      else if n = 1045 || n = 2002 || n = 2003 || n = 2006 || n = 2013 then
        some (.dbError ErrConnectionFailed err "")
      else none

/-- `mapSQLiteError` (part_005): substring matching on the error text. -/
def mapSQLiteError (err : GoErr) : Option GoErr :=
  let s := errMessage err
  if strContains s "UNIQUE constraint failed" then some (.dbError ErrDuplicateKey err "")
  else if strContains s "FOREIGN KEY constraint failed" then some (.dbError ErrForeignKeyViolation err "")
  else if strContains s "CHECK constraint failed" then some (.dbError ErrCheckViolation err "")
  else if strContains s "database is locked" then some (.dbError ErrDeadlock err "")
  else none

/-- `defaultMap` (part_005) on a non-nil error: the branch order of the
source — `sql.ErrNoRows`, context errors, the already-mapped check, then
pq, pgx, MySQL, SQLite, and finally passthrough. -/
def defaultMapE (err : GoErr) : GoErr :=
  if errIs .sqlErrNoRows err then .dbError ErrNotFound err ""
  else if errIs .ctxDeadlineExceeded err || errIs .ctxCanceled err then
    .dbError ErrTimeout err ""
  else if (asDBError err).isSome then err
  else
    match mapPQError err with
    | some m => m
    | none =>
      match mapPGXError err with
      | some m => m
      | none =>
        match mapMySQLError err with
        | some m => m
        | none =>
          match mapSQLiteError err with
          | some m => m
          | none => err

/-- `defaultMap` (part_005) including the nil short-circuit; this is the
`Map` of `DefaultErrorMapper()`. -/
def defaultMap : Option GoErr → Option GoErr
  | none => none
  | some e => some (defaultMapE e)

/-- `DB.mapErr` and `Tx.mapErr`: nil passes through, otherwise delegate to
the active mapper. -/
def dmapErr (em : Option GoErr → Option GoErr) : Option GoErr → Option GoErr
  | none => none
  | some e => em (some e)

/-!  Hooks (hooks.go).  A hook implementation is modelled by what it does
on one invocation: either it completes normally or it panics.  The leaf
universe carries an id so that invocations are observable; `CompositeHook`
combines a list of leaves.  One composite level suffices for the chain
semantics at issue: the chain-level recovery is per registered hook,
composites have none of their own. -/

/-- A concrete hook implementation: id for observation, and whether each
method panics when invoked. -/
structure LeafHook where
  id : Nat
  beforePanics : Bool
  afterPanics : Bool
  deriving DecidableEq, Repr

/-- A registered `Hook` value: a single implementation or a
`CompositeHook` of implementations. -/
inductive MHook where
  | leaf (h : LeafHook)
  | composite (subs : List LeafHook)
  deriving DecidableEq, Repr

/-- Observable events of hook dispatch.  `beforeOk`/`afterOk` record a
completed method call (`afterOk` keeps the error argument the hook was
given); `recoveredBefore`/`recoveredAfter` record the chain-level
`recover` plus `slog.Error` diagnostic of `safeBeforeQuery` /
`safeAfterQuery`. -/
inductive HookEvt where
  | beforeOk (id : Nat)
  | afterOk (id : Nat) (err : Option GoErr)
  | recoveredBefore
  | recoveredAfter
  deriving DecidableEq, Repr

/-- One `BeforeQuery` call on a single implementation: events produced and
whether it panicked. -/
def runLeafBefore (h : LeafHook) : List HookEvt × Bool :=
  if h.beforePanics then ([], true) else ([.beforeOk h.id], false)

/-- One `AfterQuery` call on a single implementation, given the error
argument. -/
def runLeafAfter (h : LeafHook) (err : Option GoErr) : List HookEvt × Bool :=
  if h.afterPanics then ([], true) else ([.afterOk h.id err], false)

/-- `compositeHook.BeforeQuery` (hooks.go): plain loop over the sub-hooks,
no recovery — a panic propagates and the remaining sub-hooks are skipped. -/
def compositeBefore : List LeafHook → List HookEvt × Bool
  | [] => ([], false)
  | h :: rest =>
      match runLeafBefore h with
      | (evts, true) => (evts, true)
      | (evts, false) =>
          let r := compositeBefore rest
          (evts ++ r.1, r.2)

/-- `compositeHook.AfterQuery` (hooks.go). -/
def compositeAfter (err : Option GoErr) : List LeafHook → List HookEvt × Bool
  | [] => ([], false)
  | h :: rest =>
      match runLeafAfter h err with
      | (evts, true) => (evts, true)
      | (evts, false) =>
          let r := compositeAfter err rest
          (evts ++ r.1, r.2)

/-- A registered hook's `BeforeQuery`. -/
def runBeforeH : MHook → List HookEvt × Bool
  | .leaf h => runLeafBefore h
  | .composite subs => compositeBefore subs

/-- A registered hook's `AfterQuery`. -/
def runAfterH (err : Option GoErr) : MHook → List HookEvt × Bool
  | .leaf h => runLeafAfter h err
  | .composite subs => compositeAfter err subs

/-- `safeBeforeQuery` (hooks.go): invoke the hook under a deferred
`recover`; a panic is logged and swallowed, so control always returns to
the chain. -/
def safeBeforeQuery (h : MHook) : List HookEvt :=
  match runBeforeH h with
  | (evts, false) => evts
  | (evts, true) => evts ++ [.recoveredBefore]

/-- `safeAfterQuery` (hooks.go). -/
def safeAfterQuery (h : MHook) (err : Option GoErr) : List HookEvt :=
  match runAfterH err h with
  | (evts, false) => evts
  | (evts, true) => evts ++ [.recoveredAfter]

/-- `hookChain.Before` (hooks.go): every registered hook, in order, each
through its own recovery wrapper. -/
def hookChainBefore : List MHook → List HookEvt
  | [] => []
  | h :: rest => safeBeforeQuery h ++ hookChainBefore rest

/-- `hookChain.After` (hooks.go). -/
def hookChainAfter (err : Option GoErr) : List MHook → List HookEvt
  | [] => []
  | h :: rest => safeAfterQuery h err ++ hookChainAfter err rest

/-- `newHookChain` (hooks.go): nil entries are silently dropped. -/
def newHookChain (hs : List (Option MHook)) : List MHook :=
  hs.filterMap id

/-!  Executor operations (part_004 for `DB`, tx.go for `Tx`).  The driver
call result is supplied by the environment.  Context threading is modelled
separately by `applyDefaultTimeout`; the query text and argument list do
not affect the dispatch logic and are omitted. -/

/-- Driver outcome for an `ExecContext` / `QueryContext` call. -/
structure ExecEnv where
  driverErr : Option GoErr
  deriving DecidableEq, Repr

/-- Observable outcome of one executor operation: the before events, the
after events, and the value returned to the caller. -/
structure OpTrace where
  beforeEvts : List HookEvt
  afterEvts : List HookEvt
  result : Option GoErr
  deriving DecidableEq, Repr

/-- `DB.Exec` (part_004): before hooks, driver call, classify the error,
after hooks with the classified error, return the classified error. -/
def dbExec (hooks : List MHook) (em : Option GoErr → Option GoErr) (env : ExecEnv) : OpTrace :=
  let bev := hookChainBefore hooks
  let err := dmapErr em env.driverErr
  let aev := hookChainAfter err hooks
  ⟨bev, aev, err⟩

/-- `DB.Query` (part_004): same dispatch shape as `Exec`. -/
def dbQuery (hooks : List MHook) (em : Option GoErr → Option GoErr) (env : ExecEnv) : OpTrace :=
  let bev := hookChainBefore hooks
  let err := dmapErr em env.driverErr
  let aev := hookChainAfter err hooks
  ⟨bev, aev, err⟩

/-- `Tx.Exec` (tx.go). -/
def txExec (hooks : List MHook) (em : Option GoErr → Option GoErr) (env : ExecEnv) : OpTrace :=
  let bev := hookChainBefore hooks
  let err := dmapErr em env.driverErr
  let aev := hookChainAfter err hooks
  ⟨bev, aev, err⟩

/-- `Tx.Query` (tx.go). -/
def txQuery (hooks : List MHook) (em : Option GoErr → Option GoErr) (env : ExecEnv) : OpTrace :=
  let bev := hookChainBefore hooks
  let err := dmapErr em env.driverErr
  let aev := hookChainAfter err hooks
  ⟨bev, aev, err⟩

/-- The `*sql.Row` returned by `QueryRowContext`: it carries the deferred
error that `Scan` will surface. -/
structure MRow where
  rowErr : Option GoErr
  deriving DecidableEq, Repr

/-- Environment for a `QueryRow` call. -/
structure RowEnv where
  rowErr : Option GoErr
  deriving DecidableEq, Repr

/-- Observable outcome of a `QueryRow` call: no error is returned, only a
`Row`. -/
structure RowTrace where
  beforeEvts : List HookEvt
  afterEvts : List HookEvt
  row : MRow
  deriving DecidableEq, Repr

/-- `DB.QueryRow` (part_004): the after hooks receive nil — the comment in
the source says the error is unknown until `Scan`. -/
def dbQueryRow (hooks : List MHook) (env : RowEnv) : RowTrace :=
  let bev := hookChainBefore hooks
  let aev := hookChainAfter none hooks
  ⟨bev, aev, ⟨env.rowErr⟩⟩

/-- `Tx.QueryRow` (tx.go): identical dispatch. -/
def txQueryRow (hooks : List MHook) (env : RowEnv) : RowTrace :=
  let bev := hookChainBefore hooks
  let aev := hookChainAfter none hooks
  ⟨bev, aev, ⟨env.rowErr⟩⟩

/-- `Row.Scan` (part_004): `return r.errMap.Map(err)` — the raw row error
through the mapper, with no nil guard of its own. -/
def rowScan (em : Option GoErr → Option GoErr) (r : MRow) : Option GoErr :=
  em r.rowErr

/-!  Transaction orchestration (tx.go `ExecTxOpts`).  The driver-side
`*sql.Tx` follows the database/sql contract: both `Commit` and `Rollback`
first flip the done flag; once the flag is set, either returns
`sql.ErrTxDone` without touching the driver.  The environment supplies
the driver-level outcomes of begin, body, commit and rollback.  The
transaction context is taken as not cancelled (cancellation of in-flight
statements is outside this model). -/

/-- How the body function terminates: a normal return, or a panic that
unwinds through `ExecTxOpts`. -/
inductive BodyOutcome where
  | ret (e : Option GoErr)
  | panics (msg : String)
  deriving DecidableEq, Repr

/-- How `ExecTxOpts` terminates from the caller's point of view. -/
inductive TxResult where
  | ret (e : Option GoErr)
  | panicked (msg : String)
  deriving DecidableEq, Repr

/-- Driver interactions observable during `ExecTxOpts`. -/
inductive TxEvt where
  | commitTried
  | rollbackTried
  deriving DecidableEq, Repr

/-- Environment of one `ExecTxOpts` run: the raw driver errors of each
step (`none` = success). -/
structure TxEnv where
  beginRes : Option GoErr
  body : BodyOutcome
  commitRes : Option GoErr
  rollbackRes : Option GoErr
  deriving Repr

/-- The deferred cleanup of `ExecTxOpts` on the non-panic path: when the
named return value is a non-nil error, call `sqltx.Rollback()`; per the
database/sql done flag, a rollback after a completed commit attempt
returns `sql.ErrTxDone`.  A rollback failure replaces the error with the
combined `rollback failed ... after original error` wrapper. -/
def deferredRollback (env : TxEnv) (txDone : Bool) (err : Option GoErr) :
    Option GoErr × List TxEvt :=
  match err with
  | none => (none, [])
  | some e =>
      let rb := if txDone then some GoErr.errTxDone else env.rollbackRes
      match rb with
      | some rbe => (some (.rollbackFailed rbe e), [.rollbackTried])
      | none => (some e, [.rollbackTried])

/-- `DB.ExecTxOpts` (tx.go), with the active mapper `em` (`d.errMap`);
`ExecTx` forwards here.  Control flow of the source: begin (failure
returns the mapped error before the defer is registered); run the body;
a panic rolls back and re-panics; a non-nil body error is mapped and the
defer rolls back; otherwise commit, mapping a commit failure — in which
case the defer sees a non-nil error and also attempts rollback on the
already-done transaction. -/
def execTxOpts (em : Option GoErr → Option GoErr) (env : TxEnv) :
    TxResult × List TxEvt :=
  match env.beginRes with
  | some e => (.ret (dmapErr em (some e)), [])
  | none =>
      match env.body with
      | .panics m => (.panicked m, [.rollbackTried])
      | .ret (some be) =>
          let r := deferredRollback env false (dmapErr em (some be))
          (.ret r.1, r.2)
      | .ret none =>
          match env.commitRes with
          | some ce =>
              let r := deferredRollback env true (dmapErr em (some ce))
              (.ret r.1, TxEvt.commitTried :: r.2)
          | none => (.ret none, [.commitTried])

/-!  Retry orchestration (part_004 `WithRetry`).  The environment gives
the outcome of each call of `fn` (indexed by attempt number) and whether
the context is done during the wait preceding a given attempt; the loop
is the source's `for attempt := 0; attempt < cfg.MaxAttempts; attempt++`
with the leading cancellable wait for every attempt after the first. -/

/-- Observable events of a `WithRetry` run. -/
inductive RetryEvent where
  | wait
  | call
  deriving DecidableEq, Repr

/-- Environment of a `WithRetry` run. -/
structure RetryEnv where
  fnResults : Nat → Option GoErr
  ctxDoneAt : Nat → Bool
  ctxErr : GoErr

/-- Result of a `WithRetry` run plus instrumentation: number of `fn`
invocations and the wait/call event sequence. -/
structure RetryState where
  result : Option GoErr
  calls : Nat
  events : List RetryEvent
  deriving DecidableEq, Repr

/-- The retry loop.  Fuel counts the remaining iterations
(`cfg.MaxAttempts - attempt`); for `attempt > 0` the iteration starts
with the `select` on `ctx.Done()` versus `time.After(cfg.Delay)` — a
cancelled context returns `ctx.Err()` without calling `fn` again. -/
def withRetryLoop (maxA : Int) (p : GoErr → Bool) (env : RetryEnv) :
    Nat → Nat → Option GoErr → RetryState
  | 0, attempt, lastErr => ⟨some (GoErr.retryComposite maxA lastErr), attempt, []⟩
  | k + 1, attempt, _lastErr =>
      if 0 < attempt then
        if env.ctxDoneAt attempt then ⟨some env.ctxErr, attempt, []⟩
        else
          match env.fnResults attempt with
          | none => ⟨none, attempt + 1, [.wait, .call]⟩
          | some e =>
              if p e then
                let s := withRetryLoop maxA p env k (attempt + 1) (some e)
                ⟨s.result, s.calls, .wait :: .call :: s.events⟩
              else ⟨some e, attempt + 1, [.wait, .call]⟩
      else
        match env.fnResults attempt with
        | none => ⟨none, attempt + 1, [.call]⟩
        | some e =>
            if p e then
              let s := withRetryLoop maxA p env k (attempt + 1) (some e)
              ⟨s.result, s.calls, .call :: s.events⟩
            else ⟨some e, attempt + 1, [.call]⟩
  termination_by k => k

/-- `RetryConfig` (part_004).  `Delay` does not influence which events
happen (only their timing) and is omitted. -/
structure RetryConfig where
  maxAttempts : Int
  retryOn : Option (GoErr → Bool)

/-- The effective predicate of `WithRetry`: `cfg.RetryOn`, defaulting to
`IsDeadlock(err) || IsTimeout(err)`. -/
def effRetryOn (cfg : RetryConfig) : GoErr → Bool :=
  match cfg.retryOn with
  | some f => f
  | none => fun e => errIs ErrDeadlock e || errIs ErrTimeout e

/-- `WithRetry` (part_004). -/
def withRetryGo (cfg : RetryConfig) (env : RetryEnv) : RetryState :=
  withRetryLoop cfg.maxAttempts (effRetryOn cfg) env cfg.maxAttempts.toNat 0 none

/-- Checks the tail shape of a wait/call event list after the first call:
a sequence of wait-then-call pairs ending anywhere. -/
def waitCallPairs : List RetryEvent → Bool
  | [] => true
  | .wait :: .call :: rest => waitCallPairs rest
  | _ => false

/-- Checks that an event list never waits before the first call and waits
at most once, immediately before each later call. -/
def evtsOk : List RetryEvent → Bool
  | [] => true
  | .call :: rest => waitCallPairs rest
  | .wait :: _ => false

/-!  Context and default timeout (part_004 `applyDefaultTimeout`). -/

/-- A `context.Context` as far as this layer inspects it: its optional
absolute deadline. -/
structure GoContext where
  deadline : Option Nat
  deriving DecidableEq, Repr

/-- The `Config` fields consulted by `applyDefaultTimeout`.  Durations are
non-negative; zero means no default timeout. -/
structure MConfig where
  defaultTimeout : Nat
  deriving DecidableEq, Repr

/-- `DB.applyDefaultTimeout` (part_004): no default configured — return
the context unchanged; the caller already set a deadline — return the
context unchanged; otherwise `context.WithTimeout(ctx, cfg.DefaultTimeout)`
from the current instant `now`. -/
def applyDefaultTimeout (cfg : MConfig) (now : Nat) (ctx : GoContext) : GoContext :=
  if cfg.defaultTimeout = 0 then ctx
  else if ctx.deadline.isSome then ctx
  else { ctx with deadline := some (now + cfg.defaultTimeout) }

/-! Helper lemmas. -/

theorem errIs_self (e : GoErr) : errIs e e = true := by
  cases e <;> simp [errIs]

theorem errIs_dbError_self (s : GoErr) (c : GoErr) (m : String) :
    errIs c (.dbError s c m) = true := by
  simp [errIs, errIs_self]

theorem errIs_rollback_orig {t o : GoErr} (rb : GoErr) (h : errIs t o = true) :
    errIs t (.rollbackFailed rb o) = true := by
  simp [errIs, h]

theorem mapByPGCode_keeps_cause {code : String} {cause r : GoErr}
    (h : mapByPGCode code cause = some r) : errIs cause r = true := by
  unfold mapByPGCode at h
  repeat' split at h
  all_goals simp_all
  all_goals (subst h; exact errIs_dbError_self _ _ _)

theorem mapPQError_keeps_cause {e r : GoErr} (h : mapPQError e = some r) :
    errIs e r = true := by
  unfold mapPQError at h
  split at h <;> exact mapByPGCode_keeps_cause h

theorem mapPGXError_keeps_cause {e r : GoErr} (h : mapPGXError e = some r) :
    errIs e r = true := by
  unfold mapPGXError at h
  split at h
  · cases h
  · exact mapByPGCode_keeps_cause h

theorem mapMySQLError_keeps_cause {e r : GoErr} (h : mapMySQLError e = some r) :
    errIs e r = true := by
  unfold mapMySQLError at h
  split at h
  · cases h
  · repeat' split at h
    all_goals simp_all
    all_goals (subst h; exact errIs_dbError_self _ _ _)

theorem mapSQLiteError_keeps_cause {e r : GoErr} (h : mapSQLiteError e = some r) :
    errIs e r = true := by
  simp only [mapSQLiteError] at h
  repeat' split at h
  all_goals simp_all
  all_goals (subst h; exact errIs_dbError_self _ _ _)

/-- Whatever the default mapper returns, the original error stays
reachable through the Is/Unwrap chain. -/
theorem errIs_defaultMapE (e : GoErr) : errIs e (defaultMapE e) = true := by
  unfold defaultMapE
  split
  · exact errIs_dbError_self _ _ _
  · split
    · exact errIs_dbError_self _ _ _
    · split
      · exact errIs_self _
      · split
        · next h => exact mapPQError_keeps_cause h
        · split
          · next h => exact mapPGXError_keeps_cause h
          · split
            · next h => exact mapMySQLError_keeps_cause h
            · split
              · next h => exact mapSQLiteError_keeps_cause h
              · exact errIs_self _

theorem hookChainBefore_append (a b : List MHook) :
    hookChainBefore (a ++ b) = hookChainBefore a ++ hookChainBefore b := by
  induction a with
  | nil => simp [hookChainBefore]
  | cons h t ih => simp [hookChainBefore, ih]

theorem hookChainAfter_append (err : Option GoErr) (a b : List MHook) :
    hookChainAfter err (a ++ b) = hookChainAfter err a ++ hookChainAfter err b := by
  induction a with
  | nil => simp [hookChainAfter]
  | cons h t ih => simp [hookChainAfter, ih]

theorem hookChainAfter_leaves (err : Option GoErr) (ls : List LeafHook)
    (h : ∀ x ∈ ls, x.afterPanics = false) :
    hookChainAfter err (ls.map .leaf) =
      ls.map (fun x => HookEvt.afterOk x.id err) := by
  induction ls with
  | nil => simp [hookChainAfter]
  | cons x t ih =>
      have hx : x.afterPanics = false := h x (by simp)
      have ht : ∀ y ∈ t, y.afterPanics = false := fun y hy => h y (by simp [hy])
      simp [hookChainAfter, safeAfterQuery, runAfterH, runLeafAfter, hx, ih ht]

theorem compositeBefore_panics_skips (pre rest : List LeafHook) (g : LeafHook)
    (hpre : ∀ x ∈ pre, x.beforePanics = false) (hg : g.beforePanics = true) :
    compositeBefore (pre ++ g :: rest) =
      (pre.map (fun x => HookEvt.beforeOk x.id), true) := by
  induction pre with
  | nil => simp [compositeBefore, runLeafBefore, hg]
  | cons x t ih =>
      have hx : x.beforePanics = false := hpre x (by simp)
      have ht : ∀ y ∈ t, y.beforePanics = false := fun y hy => hpre y (by simp [hy])
      simp [compositeBefore, runLeafBefore, hx, ih ht]

theorem compositeAfter_panics_skips (err : Option GoErr) (pre rest : List LeafHook)
    (g : LeafHook) (hpre : ∀ x ∈ pre, x.afterPanics = false) (hg : g.afterPanics = true) :
    compositeAfter err (pre ++ g :: rest) =
      (pre.map (fun x => HookEvt.afterOk x.id err), true) := by
  induction pre with
  | nil => simp [compositeAfter, runLeafAfter, hg]
  | cons x t ih =>
      have hx : x.afterPanics = false := hpre x (by simp)
      have ht : ∀ y ∈ t, y.afterPanics = false := fun y hy => hpre y (by simp [hy])
      simp [compositeAfter, runLeafAfter, hx, ih ht]

/-- When the context is never done and every consulted attempt fails with
a retryable error, the loop burns all its fuel and reports the composite
error built from the last failure. -/
theorem withRetryLoop_exhaust (maxA : Int) (p : GoErr → Bool) (env : RetryEnv)
    (hc : ∀ j, env.ctxDoneAt j = false) :
    ∀ k attempt lastErr,
      (∀ j, j < k → ∃ e, env.fnResults (attempt + j) = some e ∧ p e = true) →
      (withRetryLoop maxA p env k attempt lastErr).calls = attempt + k ∧
      (withRetryLoop maxA p env k attempt lastErr).result =
        some (GoErr.retryComposite maxA
          (match k with
           | 0 => lastErr
           | k' + 1 => env.fnResults (attempt + k'))) := by
  intro k
  induction k with
  | zero =>
      intro attempt lastErr _
      constructor <;> simp [withRetryLoop]
  | succ k ih =>
      intro attempt lastErr hf
      obtain ⟨e, he, hp⟩ := by
        have h0 := hf 0 (Nat.succ_pos k)
        simpa using h0
      have hf2 : ∀ j, j < k → ∃ e2, env.fnResults (attempt + 1 + j) = some e2 ∧ p e2 = true := by
        intro j hj
        have hh := hf (j + 1) (by omega)
        have harith : attempt + (j + 1) = attempt + 1 + j := by omega
        rwa [harith] at hh
      have ihs := ih (attempt + 1) (some e) hf2
      have hgoal :
          withRetryLoop maxA p env (k + 1) attempt lastErr =
            ⟨(withRetryLoop maxA p env k (attempt + 1) (some e)).result,
             (withRetryLoop maxA p env k (attempt + 1) (some e)).calls,
             (if 0 < attempt then [RetryEvent.wait, RetryEvent.call] else [RetryEvent.call]) ++
               (withRetryLoop maxA p env k (attempt + 1) (some e)).events⟩ := by
        by_cases ha : 0 < attempt
        · simp [withRetryLoop, ha, hc attempt, he, hp]
        · simp [withRetryLoop, ha, he, hp]
      have hcalls : (withRetryLoop maxA p env (k + 1) attempt lastErr).calls =
          (withRetryLoop maxA p env k (attempt + 1) (some e)).calls := by
        rw [hgoal]
      have hres : (withRetryLoop maxA p env (k + 1) attempt lastErr).result =
          (withRetryLoop maxA p env k (attempt + 1) (some e)).result := by
        rw [hgoal]
      constructor
      · rw [hcalls]
        have h1 := ihs.1
        omega
      · rw [hres, ihs.2]
        cases k with
        | zero => simp [he]
        | succ k2 =>
            have harith : attempt + 1 + k2 = attempt + (k2 + 1) := by omega
            simp only [harith]

/-- If the first `j` attempts fail with retryable errors, attempt `j`
succeeds, and the context is never done, the loop returns nil after
`j + 1` calls. -/
theorem withRetryLoop_success (maxA : Int) (p : GoErr → Bool) (env : RetryEnv)
    (hc : ∀ j, env.ctxDoneAt j = false) :
    ∀ j k attempt lastErr, j < k →
      (∀ i, i < j → ∃ e, env.fnResults (attempt + i) = some e ∧ p e = true) →
      env.fnResults (attempt + j) = none →
      (withRetryLoop maxA p env k attempt lastErr).result = none ∧
      (withRetryLoop maxA p env k attempt lastErr).calls = attempt + j + 1 := by
  intro j
  induction j with
  | zero =>
      intro k attempt lastErr hjk _ hnone
      obtain ⟨k2, rfl⟩ : ∃ k2, k = k2 + 1 := ⟨k - 1, by omega⟩
      simp only [Nat.add_zero] at hnone
      by_cases ha : 0 < attempt
      · simp [withRetryLoop, ha, hc attempt, hnone]
      · simp [withRetryLoop, ha, hnone]
  | succ j ih =>
      intro k attempt lastErr hjk hf hnone
      obtain ⟨k2, rfl⟩ : ∃ k2, k = k2 + 1 := ⟨k - 1, by omega⟩
      obtain ⟨e, he, hp⟩ := by
        have := hf 0 (Nat.succ_pos j)
        simpa using this
      have hf2 : ∀ i, i < j → ∃ e, env.fnResults (attempt + 1 + i) = some e ∧ p e = true := by
        intro i hi
        have := hf (i + 1) (by omega)
        have harith : attempt + (i + 1) = attempt + 1 + i := by omega
        rwa [harith] at this
      have hnone2 : env.fnResults (attempt + 1 + j) = none := by
        have harith : attempt + (j + 1) = attempt + 1 + j := by omega
        rwa [harith] at hnone
      have ihs := ih k2 (attempt + 1) (some e) (by omega) hf2 hnone2
      have hgoal :
          withRetryLoop maxA p env (k2 + 1) attempt lastErr =
            ⟨(withRetryLoop maxA p env k2 (attempt + 1) (some e)).result,
             (withRetryLoop maxA p env k2 (attempt + 1) (some e)).calls,
             (if 0 < attempt then [RetryEvent.wait, RetryEvent.call] else [RetryEvent.call]) ++
               (withRetryLoop maxA p env k2 (attempt + 1) (some e)).events⟩ := by
        by_cases ha : 0 < attempt
        · simp [withRetryLoop, ha, hc attempt, he, hp]
        · simp [withRetryLoop, ha, he, hp]
      have hcalls : (withRetryLoop maxA p env (k2 + 1) attempt lastErr).calls =
          (withRetryLoop maxA p env k2 (attempt + 1) (some e)).calls := by
        rw [hgoal]
      have hres : (withRetryLoop maxA p env (k2 + 1) attempt lastErr).result =
          (withRetryLoop maxA p env k2 (attempt + 1) (some e)).result := by
        rw [hgoal]
      refine ⟨by rw [hres]; exact ihs.1, ?_⟩
      rw [hcalls]
      have h2 := ihs.2
      omega

/-- Once past the first attempt, the remaining event tail consists of
wait-call pairs. -/
theorem withRetryLoop_tail_ok (maxA : Int) (p : GoErr → Bool) (env : RetryEnv) :
    ∀ k attempt lastErr, 0 < attempt →
      waitCallPairs (withRetryLoop maxA p env k attempt lastErr).events = true := by
  intro k
  induction k with
  | zero => intro attempt lastErr _; simp [withRetryLoop, waitCallPairs]
  | succ k ih =>
      intro attempt lastErr ha
      simp only [withRetryLoop, ha, if_true]
      by_cases hd : env.ctxDoneAt attempt
      · simp [hd, waitCallPairs]
      · simp only [hd, Bool.false_eq_true, if_false]
        cases hres : env.fnResults attempt with
        | none => simp [waitCallPairs]
        | some e =>
            by_cases hp : p e = true
            · simp only [hp, if_true]
              simpa [waitCallPairs] using ih (attempt + 1) (some e) (by omega)
            · simp [hp, waitCallPairs]

/-! Claim theorems. -/

/-- C1: the claim states that for every already-classified error `e`,
`Map(e) == e` exactly.  The code violates this: the `sql.ErrNoRows` and
context checks of `defaultMap` run before the already-mapped check, and
they see through `DBError.Unwrap` into the Cause.  Applying the mapper to
its own output for `sql.ErrNoRows` — precisely the `DBError` the first
branch builds — wraps it a second time, contradicting the source comment
`Already mapped — do not double-wrap`. -/
theorem defaultMap_double_wraps_notFound :
    defaultMapE .sqlErrNoRows = .dbError ErrNotFound .sqlErrNoRows "" ∧
    defaultMapE (.dbError ErrNotFound .sqlErrNoRows "") =
      .dbError ErrNotFound (.dbError ErrNotFound .sqlErrNoRows "") "" ∧
    defaultMapE (.dbError ErrNotFound .sqlErrNoRows "") ≠
      .dbError ErrNotFound .sqlErrNoRows "" ∧
    defaultMapE (.dbError ErrTimeout .ctxDeadlineExceeded "") ≠
      .dbError ErrTimeout .ctxDeadlineExceeded "" := by
  refine ⟨by decide, by decide, by decide, by decide⟩

/-- C3 counterexample: the claim says that when rollback succeeds the
original body error is returned unchanged.  With body error
`sql.ErrNoRows` and a successful rollback, `ExecTxOpts` returns
`d.mapErr(err)` — the classified wrapper — not the body error itself. -/
theorem execTx_body_error_rewrapped :
    execTxOpts defaultMap ⟨none, .ret (some .sqlErrNoRows), none, none⟩ =
      (.ret (some (.dbError ErrNotFound .sqlErrNoRows "")), [.rollbackTried]) ∧
    some (GoErr.dbError ErrNotFound .sqlErrNoRows "") ≠ some GoErr.sqlErrNoRows := by
  refine ⟨by decide, by decide⟩

/-- C3 amended: on a non-nil body error `ExecTxOpts` attempts rollback
exactly once; if the rollback fails, the reported error combines the
rollback failure with the mapped body error; otherwise it returns the
body error after passing it through the active error mapper (unchanged
exactly when the mapper leaves it unchanged).  In both cases the original
body error remains reachable through the Is/Unwrap chain. -/
theorem execTx_rollback_on_body_error (env : TxEnv) (be : GoErr)
    (h1 : env.beginRes = none) (h2 : env.body = .ret (some be)) :
    (execTxOpts defaultMap env).2 = [.rollbackTried] ∧
    (execTxOpts defaultMap env).1 = .ret (some (match env.rollbackRes with
       | some rb => .rollbackFailed rb (defaultMapE be)
       | none => defaultMapE be)) ∧
    errIs be (match env.rollbackRes with
       | some rb => .rollbackFailed rb (defaultMapE be)
       | none => defaultMapE be) = true := by
  cases henv : env.rollbackRes with
  | none =>
      refine ⟨?_, ?_, errIs_defaultMapE be⟩ <;>
        simp [execTxOpts, h1, h2, deferredRollback, dmapErr, defaultMap, henv]
  | some rb =>
      refine ⟨?_, ?_, errIs_rollback_orig rb (errIs_defaultMapE be)⟩ <;>
        simp [execTxOpts, h1, h2, deferredRollback, dmapErr, defaultMap, henv]

/-- C3 witness: a concrete run with a failing rollback, where the
returned error combines both failures. -/
theorem execTx_rollback_on_body_error_witness :
    (execTxOpts defaultMap ⟨none, .ret (some (.sentinel "boom")), none,
        some (.sentinel "rb failed")⟩).1 =
      .ret (some (.rollbackFailed (.sentinel "rb failed") (.sentinel "boom"))) ∧
    errIs (.sentinel "boom")
      (.rollbackFailed (.sentinel "rb failed") (.sentinel "boom")) = true := by
  have h := execTx_rollback_on_body_error
    ⟨none, .ret (some (.sentinel "boom")), none, some (.sentinel "rb failed")⟩
    (.sentinel "boom") rfl rfl
  refine ⟨?_, ?_⟩
  · have h2 := h.2.1
    simpa using by
      rw [h2]
      have : defaultMapE (.sentinel "boom") = .sentinel "boom" := by decide
      simp [this]
  · have h3 := h.2.2
    simpa using by
      have : defaultMapE (.sentinel "boom") = .sentinel "boom" := by decide
      rw [this] at h3
      simpa using h3

/-- C4: the claim says a failed commit makes `ExecTxOpts` return the
classified commit error.  The code violates the intent: after
`sqltx.Commit()` fails, the named return error is non-nil, so the
deferred cleanup also calls `sqltx.Rollback()`; by the database/sql done
flag this yields `sql.ErrTxDone`, and the caller receives the combined
`rollback failed (sql: transaction has already been committed or rolled
back) after original error: ...` wrapper instead of the classified commit
error itself (the commit error stays reachable only via Unwrap). -/
theorem execTx_commit_failure_wrapped_with_errTxDone :
    execTxOpts defaultMap ⟨none, .ret none, some (.sentinel "driver: commit failed"), none⟩ =
      (.ret (some (.rollbackFailed .errTxDone (.sentinel "driver: commit failed"))),
       [.commitTried, .rollbackTried]) ∧
    TxResult.ret (some (.rollbackFailed .errTxDone (.sentinel "driver: commit failed"))) ≠
      TxResult.ret (some (.sentinel "driver: commit failed")) ∧
    defaultMapE (.sentinel "driver: commit failed") = .sentinel "driver: commit failed" := by
  refine ⟨by decide, by decide, by decide⟩

/-- C2 counterexample: the claim says the after-notification receives the
already-classified error of the attempt (or nil on success).  For
`QueryRow` the code always passes nil — the source comment reads
`err unknown until Scan` — even when the driver attempt failed: here the
row carries a PostgreSQL connection failure, `Scan` classifies it to
`ErrConnectionFailed`, yet the hook was given nil. -/
theorem queryRow_after_arg_nil_on_failure :
    (dbQueryRow [.leaf ⟨1, false, false⟩] ⟨some (.pqErr "08006" "connection failure")⟩).afterEvts =
      [.afterOk 1 none] ∧
    rowScan defaultMap
        (dbQueryRow [.leaf ⟨1, false, false⟩] ⟨some (.pqErr "08006" "connection failure")⟩).row =
      some (.dbError ErrConnectionFailed (.pqErr "08006" "connection failure") "") ∧
    (none : Option GoErr) ≠
      some (.dbError ErrConnectionFailed (.pqErr "08006" "connection failure") "") := by
  refine ⟨by decide, by decide, by decide⟩

/-- C2 amended: for every chain of (non-panicking) hooks, each of the six
executor operations notifies every registered hook exactly once after the
attempt, in registration order.  `Exec` and `Query` on both `DB` and `Tx`
pass the classified error of the attempt (nil on success); `QueryRow`
always passes nil because its error is deferred to `Row.Scan`, which is
where classification happens. -/
theorem hooks_after_called_once (ls : List LeafHook) (env : ExecEnv) (envR : RowEnv)
    (h : ∀ x ∈ ls, x.afterPanics = false) :
    (dbExec (ls.map .leaf) defaultMap env).afterEvts =
      ls.map (fun x => HookEvt.afterOk x.id (dmapErr defaultMap env.driverErr)) ∧
    (dbQuery (ls.map .leaf) defaultMap env).afterEvts =
      ls.map (fun x => HookEvt.afterOk x.id (dmapErr defaultMap env.driverErr)) ∧
    (txExec (ls.map .leaf) defaultMap env).afterEvts =
      ls.map (fun x => HookEvt.afterOk x.id (dmapErr defaultMap env.driverErr)) ∧
    (txQuery (ls.map .leaf) defaultMap env).afterEvts =
      ls.map (fun x => HookEvt.afterOk x.id (dmapErr defaultMap env.driverErr)) ∧
    (dbQueryRow (ls.map .leaf) envR).afterEvts =
      ls.map (fun x => HookEvt.afterOk x.id none) ∧
    (txQueryRow (ls.map .leaf) envR).afterEvts =
      ls.map (fun x => HookEvt.afterOk x.id none) := by
  refine ⟨?_, ?_, ?_, ?_, ?_, ?_⟩ <;>
    simp [dbExec, dbQuery, txExec, txQuery, dbQueryRow, txQueryRow,
      hookChainAfter_leaves _ ls h]

/-- C2 witness: two hooks, a failing `Exec` and a `QueryRow`; both hooks
are notified exactly once each, with the classified error for `Exec` and
nil for `QueryRow`. -/
theorem hooks_after_called_once_witness :
    (dbExec [.leaf ⟨1, false, false⟩, .leaf ⟨2, false, false⟩] defaultMap
        ⟨some .sqlErrNoRows⟩).afterEvts =
      [.afterOk 1 (some (.dbError ErrNotFound .sqlErrNoRows "")),
       .afterOk 2 (some (.dbError ErrNotFound .sqlErrNoRows ""))] ∧
    (dbQueryRow [.leaf ⟨1, false, false⟩, .leaf ⟨2, false, false⟩]
        ⟨some .sqlErrNoRows⟩).afterEvts = [.afterOk 1 none, .afterOk 2 none] := by
  have h := hooks_after_called_once [⟨1, false, false⟩, ⟨2, false, false⟩]
    ⟨some .sqlErrNoRows⟩ ⟨some .sqlErrNoRows⟩ (by decide)
  refine ⟨?_, ?_⟩
  · have h1 := h.1
    rw [show (dmapErr defaultMap (some .sqlErrNoRows)) =
      some (.dbError ErrNotFound .sqlErrNoRows "") from by decide] at h1
    simpa using h1
  · simpa using h.2.2.2.2.1

/-- C7: the configured default timeout is applied only when the caller
context has no deadline; a caller-supplied deadline always wins, and a
zero default applies no timeout. -/
theorem applyDefaultTimeout_caller_precedence (cfg : MConfig) (now : Nat) (ctx : GoContext) :
    (ctx.deadline.isSome = true → applyDefaultTimeout cfg now ctx = ctx) ∧
    (cfg.defaultTimeout = 0 → applyDefaultTimeout cfg now ctx = ctx) ∧
    (ctx.deadline = none → cfg.defaultTimeout ≠ 0 →
      (applyDefaultTimeout cfg now ctx).deadline = some (now + cfg.defaultTimeout)) := by
  refine ⟨?_, ?_, ?_⟩
  · intro h
    unfold applyDefaultTimeout
    by_cases h0 : cfg.defaultTimeout = 0 <;> simp [h0, h]
  · intro h0
    simp [applyDefaultTimeout, h0]
  · intro h hne
    simp [applyDefaultTimeout, hne, h]

/-- C7 witness: a caller deadline of 5 survives a configured default of
100; without a caller deadline the default is applied from `now = 10`. -/
theorem applyDefaultTimeout_caller_precedence_witness :
    applyDefaultTimeout ⟨100⟩ 10 ⟨some 5⟩ = ⟨some 5⟩ ∧
    applyDefaultTimeout ⟨0⟩ 10 ⟨none⟩ = ⟨none⟩ ∧
    (applyDefaultTimeout ⟨100⟩ 10 ⟨none⟩).deadline = some 110 := by
  refine ⟨(applyDefaultTimeout_caller_precedence ⟨100⟩ 10 ⟨some 5⟩).1 rfl,
    (applyDefaultTimeout_caller_precedence ⟨0⟩ 10 ⟨none⟩).2.1 rfl,
    (applyDefaultTimeout_caller_precedence ⟨100⟩ 10 ⟨none⟩).2.2 rfl (by decide)⟩

/-- C8: a panicking hook anywhere in the chain never changes the value
the operation returns; the chain runs the hooks before and after it
regardless, because each registered hook is invoked through its own
recovery wrapper; and when a hook panics the wrapper recovers and logs
instead of propagating. -/
theorem hook_panic_isolated_in_chain (hs1 hs2 : List MHook) (g : MHook)
    (em : Option GoErr → Option GoErr) (env : ExecEnv) :
    (dbExec (hs1 ++ g :: hs2) em env).result = dmapErr em env.driverErr ∧
    (dbExec (hs1 ++ g :: hs2) em env).beforeEvts =
      hookChainBefore hs1 ++ safeBeforeQuery g ++ hookChainBefore hs2 ∧
    (dbExec (hs1 ++ g :: hs2) em env).afterEvts =
      hookChainAfter (dmapErr em env.driverErr) hs1 ++
        safeAfterQuery g (dmapErr em env.driverErr) ++
        hookChainAfter (dmapErr em env.driverErr) hs2 ∧
    ((runBeforeH g).2 = true →
      safeBeforeQuery g = (runBeforeH g).1 ++ [.recoveredBefore]) ∧
    ((runAfterH (dmapErr em env.driverErr) g).2 = true →
      safeAfterQuery g (dmapErr em env.driverErr) =
        (runAfterH (dmapErr em env.driverErr) g).1 ++ [.recoveredAfter]) := by
  refine ⟨rfl, ?_, ?_, ?_, ?_⟩
  · simp [dbExec, hookChainBefore_append, hookChainBefore]
  · simp [dbExec, hookChainAfter_append, hookChainAfter]
  · intro hb
    rcases hrb : runBeforeH g with ⟨evts, b⟩
    rw [hrb] at hb
    simp at hb
    subst hb
    simp [safeBeforeQuery, hrb]
  · intro hb
    rcases hrb : runAfterH (dmapErr em env.driverErr) g with ⟨evts, b⟩
    rw [hrb] at hb
    simp at hb
    subst hb
    simp [safeAfterQuery, hrb]

/-- C8 witness: a hook whose both methods panic, sandwiched between two
well-behaved hooks, on a successful statement: the result is unchanged
and hooks 1 and 3 both run before and after, with the panic recovered in
between. -/
theorem hook_panic_isolated_in_chain_witness :
    (dbExec [.leaf ⟨1, false, false⟩, .leaf ⟨2, true, true⟩, .leaf ⟨3, false, false⟩]
        defaultMap ⟨none⟩).result = none ∧
    (dbExec [.leaf ⟨1, false, false⟩, .leaf ⟨2, true, true⟩, .leaf ⟨3, false, false⟩]
        defaultMap ⟨none⟩).beforeEvts =
      [.beforeOk 1, .recoveredBefore, .beforeOk 3] ∧
    (dbExec [.leaf ⟨1, false, false⟩, .leaf ⟨2, true, true⟩, .leaf ⟨3, false, false⟩]
        defaultMap ⟨none⟩).afterEvts =
      [.afterOk 1 none, .recoveredAfter, .afterOk 3 none] := by
  have h := hook_panic_isolated_in_chain [.leaf ⟨1, false, false⟩] [.leaf ⟨3, false, false⟩]
    (.leaf ⟨2, true, true⟩) defaultMap ⟨none⟩
  have hb := h.2.2.2.1 (by decide)
  have ha := h.2.2.2.2 (by decide)
  exact ⟨h.1, by decide, by decide⟩

/-- C10: `CompositeHook` has no per-sub-hook recovery, in either method.
When a sub-hook's `BeforeQuery` (resp. `AfterQuery`) panics after some
well-behaved predecessors, the plain loop stops there: the remaining
sub-hooks produce no events, whatever they are.  The panic escapes the
composite and is recovered only by the enclosing chain-level wrapper, so
the statement result is still unaffected. -/
theorem composite_subhook_panic_skips_rest (pre rest : List LeafHook) (g : LeafHook)
    (em : Option GoErr → Option GoErr) (env : ExecEnv) :
    ((∀ x ∈ pre, x.beforePanics = false) → g.beforePanics = true →
      compositeBefore (pre ++ g :: rest) =
        (pre.map (fun x => HookEvt.beforeOk x.id), true) ∧
      safeBeforeQuery (.composite (pre ++ g :: rest)) =
        pre.map (fun x => HookEvt.beforeOk x.id) ++ [.recoveredBefore] ∧
      (dbExec [.composite (pre ++ g :: rest)] em env).result = dmapErr em env.driverErr) ∧
    ((∀ x ∈ pre, x.afterPanics = false) → g.afterPanics = true →
      compositeAfter (dmapErr em env.driverErr) (pre ++ g :: rest) =
        (pre.map (fun x => HookEvt.afterOk x.id (dmapErr em env.driverErr)), true) ∧
      safeAfterQuery (.composite (pre ++ g :: rest)) (dmapErr em env.driverErr) =
        pre.map (fun x => HookEvt.afterOk x.id (dmapErr em env.driverErr)) ++
          [.recoveredAfter] ∧
      (dbExec [.composite (pre ++ g :: rest)] em env).result = dmapErr em env.driverErr) := by
  constructor
  · intro hpre hg
    have hcb := compositeBefore_panics_skips pre rest g hpre hg
    refine ⟨hcb, ?_, rfl⟩
    simp [safeBeforeQuery, runBeforeH, hcb]
  · intro hpre hg
    have hca := compositeAfter_panics_skips (dmapErr em env.driverErr) pre rest g hpre hg
    refine ⟨hca, ?_, rfl⟩
    simp [safeAfterQuery, runAfterH, hca]

/-- C10 witness: composite of hooks 1, 2, 3.  With hook 2 panicking in
BeforeQuery, hook 1 runs, hook 3 is skipped and the panic is recovered at
chain level; with hook 2 panicking in AfterQuery instead, the same
happens in the after phase; the statement result is unaffected in both
runs. -/
theorem composite_subhook_panic_skips_rest_witness :
    compositeBefore [⟨1, false, false⟩, ⟨2, true, false⟩, ⟨3, false, false⟩] =
      ([.beforeOk 1], true) ∧
    safeBeforeQuery (.composite [⟨1, false, false⟩, ⟨2, true, false⟩, ⟨3, false, false⟩]) =
      [.beforeOk 1, .recoveredBefore] ∧
    (dbExec [.composite [⟨1, false, false⟩, ⟨2, true, false⟩, ⟨3, false, false⟩]]
        defaultMap ⟨none⟩).result = none ∧
    compositeAfter none [⟨1, false, false⟩, ⟨2, false, true⟩, ⟨3, false, false⟩] =
      ([.afterOk 1 none], true) ∧
    safeAfterQuery (.composite [⟨1, false, false⟩, ⟨2, false, true⟩, ⟨3, false, false⟩]) none =
      [.afterOk 1 none, .recoveredAfter] ∧
    (dbExec [.composite [⟨1, false, false⟩, ⟨2, false, true⟩, ⟨3, false, false⟩]]
        defaultMap ⟨none⟩).result = none := by
  have hb := (composite_subhook_panic_skips_rest [⟨1, false, false⟩]
    [⟨3, false, false⟩] ⟨2, true, false⟩ defaultMap ⟨none⟩).1 (by decide) rfl
  have ha := (composite_subhook_panic_skips_rest [⟨1, false, false⟩]
    [⟨3, false, false⟩] ⟨2, false, true⟩ defaultMap ⟨none⟩).2 (by decide) rfl
  exact ⟨by simpa using hb.1, by simpa using hb.2.1, hb.2.2,
    by simpa using ha.1, by simpa using ha.2.1, ha.2.2⟩

/-- C5: with `MaxAttempts = n ≥ 1` and an always-failing retryable
operation (and an undisturbed context), `WithRetry` calls the operation
exactly `n` times and returns the composite error carrying the attempt
count and the final failure; a non-retryable first failure is returned
after exactly one call; if the first success comes at attempt `j`, the
operation is called `j + 1` times and nil is returned. -/
theorem withRetry_bounded_attempts (cfg : RetryConfig) (env : RetryEnv) (n : Nat) :
    (cfg.maxAttempts = Int.ofNat n → 1 ≤ n →
      (∀ j, j < n → ∃ e, env.fnResults j = some e ∧ effRetryOn cfg e = true) →
      (∀ j, env.ctxDoneAt j = false) →
      (withRetryGo cfg env).calls = n ∧
      (withRetryGo cfg env).result =
        some (GoErr.retryComposite cfg.maxAttempts (env.fnResults (n - 1)))) ∧
    (∀ e, cfg.maxAttempts = Int.ofNat n → 1 ≤ n →
      env.fnResults 0 = some e → effRetryOn cfg e = false →
      (withRetryGo cfg env).calls = 1 ∧ (withRetryGo cfg env).result = some e) ∧
    (∀ j, cfg.maxAttempts = Int.ofNat n → j < n →
      (∀ i, i < j → ∃ e, env.fnResults i = some e ∧ effRetryOn cfg e = true) →
      env.fnResults j = none → (∀ i, env.ctxDoneAt i = false) →
      (withRetryGo cfg env).calls = j + 1 ∧ (withRetryGo cfg env).result = none) := by
  refine ⟨?_, ?_, ?_⟩
  · intro hmax hn hf hc
    have htn : cfg.maxAttempts.toNat = n := by rw [hmax]; rfl
    have hl := withRetryLoop_exhaust cfg.maxAttempts (effRetryOn cfg) env hc n 0 none
      (by intro j hj; simpa using hf j hj)
    obtain ⟨m, rfl⟩ : ∃ m, n = m + 1 := ⟨n - 1, by omega⟩
    constructor
    · simpa [withRetryGo, htn] using hl.1
    · simpa [withRetryGo, htn] using hl.2
  · intro e hmax hn h0 hp
    obtain ⟨m, rfl⟩ : ∃ m, n = m + 1 := ⟨n - 1, by omega⟩
    have htn : cfg.maxAttempts.toNat = m + 1 := by rw [hmax]; rfl
    refine ⟨?_, ?_⟩ <;> simp [withRetryGo, htn, withRetryLoop, h0, hp]
  · intro j hmax hjn hf hnone hc
    have htn : cfg.maxAttempts.toNat = n := by rw [hmax]; rfl
    have hl := withRetryLoop_success cfg.maxAttempts (effRetryOn cfg) env hc j n 0 none hjn
      (by intro i hi; simpa using hf i hi) (by simpa using hnone)
    exact ⟨by simpa [withRetryGo, htn] using hl.2, by simpa [withRetryGo, htn] using hl.1⟩

/-- C5 witness: three concrete runs with `MaxAttempts = 3` — an
always-failing retryable operation (3 calls, composite error), a
non-retryable failure (1 call, error returned as is), and success on the
second attempt (2 calls, nil). -/
theorem withRetry_bounded_attempts_witness :
    (withRetryGo ⟨3, none⟩ ⟨fun _ => some ErrDeadlock, fun _ => false, .ctxCanceled⟩).calls = 3 ∧
    (withRetryGo ⟨3, none⟩ ⟨fun _ => some ErrDeadlock, fun _ => false, .ctxCanceled⟩).result =
      some (.retryExhausted 3 ErrDeadlock) ∧
    (withRetryGo ⟨3, none⟩ ⟨fun _ => some (.sentinel "perm"), fun _ => false, .ctxCanceled⟩).calls = 1 ∧
    (withRetryGo ⟨3, none⟩ ⟨fun _ => some (.sentinel "perm"), fun _ => false, .ctxCanceled⟩).result =
      some (.sentinel "perm") ∧
    (withRetryGo ⟨3, none⟩
        ⟨fun k => if k = 0 then some ErrDeadlock else none, fun _ => false, .ctxCanceled⟩).calls = 2 ∧
    (withRetryGo ⟨3, none⟩
        ⟨fun k => if k = 0 then some ErrDeadlock else none, fun _ => false, .ctxCanceled⟩).result = none := by
  have hA := (withRetry_bounded_attempts ⟨3, none⟩
      ⟨fun _ => some ErrDeadlock, fun _ => false, .ctxCanceled⟩ 3).1
    (by decide) (by omega) (fun j _ => ⟨ErrDeadlock, rfl, by decide⟩) (fun _ => rfl)
  have hB := (withRetry_bounded_attempts ⟨3, none⟩
      ⟨fun _ => some (.sentinel "perm"), fun _ => false, .ctxCanceled⟩ 3).2.1
    (.sentinel "perm") (by decide) (by omega) rfl (by decide)
  have hS := (withRetry_bounded_attempts ⟨3, none⟩
      ⟨fun k => if k = 0 then some ErrDeadlock else none, fun _ => false, .ctxCanceled⟩ 3).2.2
    1 (by decide) (by omega)
    (fun i hi => by
      have hi0 : i = 0 := by omega
      subst hi0
      exact ⟨ErrDeadlock, rfl, by decide⟩)
    rfl (fun _ => rfl)
  exact ⟨hA.1, by simpa [GoErr.retryComposite] using hA.2, hB.1, hB.2, hS.1, hS.2⟩

/-- C6: the wait/call event sequence of every `WithRetry` run starts with
a call and has waits only immediately between calls (never before the
first attempt); and if the context is done during the wait before the
second attempt, `WithRetry` returns the context error right away after a
single call. -/
theorem withRetry_wait_between_and_cancellable (cfg : RetryConfig) (env : RetryEnv) :
    evtsOk (withRetryGo cfg env).events = true ∧
    (∀ m e, cfg.maxAttempts = Int.ofNat (m + 2) → env.fnResults 0 = some e →
      effRetryOn cfg e = true → env.ctxDoneAt 1 = true →
      (withRetryGo cfg env).result = some env.ctxErr ∧
      (withRetryGo cfg env).calls = 1) := by
  constructor
  · cases htn : cfg.maxAttempts.toNat with
    | zero => simp [withRetryGo, htn, withRetryLoop, evtsOk]
    | succ k =>
        simp only [withRetryGo, htn]
        cases hres : env.fnResults 0 with
        | none => simp [withRetryLoop, hres, evtsOk, waitCallPairs]
        | some e =>
            by_cases hp : effRetryOn cfg e = true
            · have htail := withRetryLoop_tail_ok cfg.maxAttempts (effRetryOn cfg) env
                k 1 (some e) (by omega)
              simp [withRetryLoop, hres, hp, evtsOk, htail]
            · simp [withRetryLoop, hres, hp, evtsOk, waitCallPairs]
  · intro m e hmax h0 hp hd
    have htn : cfg.maxAttempts.toNat = m + 2 := by rw [hmax]; rfl
    refine ⟨?_, ?_⟩ <;> simp [withRetryGo, htn, withRetryLoop, h0, hp, hd]

/-- C6 witness: with `MaxAttempts = 3`, a retryable first failure and a
context that becomes done during the first wait, `WithRetry` returns the
context error after exactly one call; the event shape check also holds on
this run. -/
theorem withRetry_wait_between_and_cancellable_witness :
    evtsOk (withRetryGo ⟨3, none⟩
      ⟨fun _ => some ErrDeadlock, fun k => k == 1, .ctxCanceled⟩).events = true ∧
    (withRetryGo ⟨3, none⟩
      ⟨fun _ => some ErrDeadlock, fun k => k == 1, .ctxCanceled⟩).result = some .ctxCanceled ∧
    (withRetryGo ⟨3, none⟩
      ⟨fun _ => some ErrDeadlock, fun k => k == 1, .ctxCanceled⟩).calls = 1 := by
  have h := withRetry_wait_between_and_cancellable ⟨3, none⟩
    ⟨fun _ => some ErrDeadlock, fun k => k == 1, .ctxCanceled⟩
  have h2 := h.2 1 ErrDeadlock (by decide) rfl (by decide) (by decide)
  exact ⟨h.1, h2.1, h2.2⟩

/-- C9: with `MaxAttempts ≤ 0` the loop body never runs: the operation is
never invoked, and `WithRetry` still returns the non-nil composite error
(reporting that all `MaxAttempts` attempts failed, wrapping a nil last
error) — it neither returns nil nor rejects the configuration. -/
theorem withRetry_nonpositive_attempts (cfg : RetryConfig) (env : RetryEnv)
    (h : cfg.maxAttempts ≤ 0) :
    (withRetryGo cfg env).calls = 0 ∧
    (withRetryGo cfg env).result = some (.retryExhaustedNil cfg.maxAttempts) ∧
    (withRetryGo cfg env).result ≠ none := by
  have htn : cfg.maxAttempts.toNat = 0 := Int.toNat_of_nonpos h
  refine ⟨?_, ?_, ?_⟩ <;>
    simp [withRetryGo, htn, withRetryLoop, GoErr.retryComposite]

/-- C9 witness: `MaxAttempts = 0` with an operation that would fail
retryably: zero calls, and the `all 0 attempts failed` composite error. -/
theorem withRetry_nonpositive_attempts_witness :
    (withRetryGo ⟨0, none⟩ ⟨fun _ => some ErrDeadlock, fun _ => false, .ctxCanceled⟩).calls = 0 ∧
    (withRetryGo ⟨0, none⟩ ⟨fun _ => some ErrDeadlock, fun _ => false, .ctxCanceled⟩).result =
      some (.retryExhaustedNil 0) := by
  have h := withRetry_nonpositive_attempts ⟨0, none⟩
    ⟨fun _ => some ErrDeadlock, fun _ => false, .ctxCanceled⟩ (by decide)
  exact ⟨h.1, h.2.1⟩

end SqlToolkit
